import Mathlib

/-!
Verification development for the cryfs block-cache entry and symmetric-cipher
layer. The cache-entry definitions are a shallow embedding of
`blockstore/src/blockstore/high_level/cache/entry.rs`; the `Data` buffer and
the cipher family are modelled from the specification because their sources
are not part of this snapshot (only `cipher_tests.rs` is).
-/

/-- A byte. We model bytes as natural numbers; where a claim depends on byte
width this is noted at the claim. -/
abbrev Byte := Nat

/-- Modelled from the spec: the `Data` buffer (its source file is not in this
snapshot). An owned contiguous byte region with three logical regions:
a reservation before the payload, the payload, and a reservation after it.
We track the two reservation byte counts and the payload bytes. -/
structure Data where
  reservedBefore : Nat
  payload : List Byte
  reservedAfter : Nat
deriving DecidableEq, Repr

/-- Modelled from the spec: `Data::resize(n)` resizes the payload. Growing
prefers consuming the reservation after the payload before reallocating
(reallocation is modelled by that reservation saturating at zero); shrinking
returns the freed bytes to that reservation. New bytes are zero. -/
def Data.resize (d : Data) (new_size : Nat) : Data :=
  if new_size ≤ d.payload.length then
    { d with
      payload := d.payload.take new_size,
      reservedAfter := d.reservedAfter + (d.payload.length - new_size) }
  else
    { d with
      payload := d.payload ++ List.replicate (new_size - d.payload.length) 0,
      reservedAfter := d.reservedAfter - (new_size - d.payload.length) }

/-- Modelled from the spec: `Data::shrink_to_subregion(start..stop)` reframes
the payload to a sub-range of the current payload, in current-payload
coordinates, retaining the cut-off bytes as reservation budget. -/
def Data.shrink_to_subregion (d : Data) (start stop : Nat) : Data :=
  { reservedBefore := d.reservedBefore + start,
    payload := (d.payload.take stop).drop start,
    reservedAfter := d.reservedAfter + (d.payload.length - stop) }

/-- Modelled from the spec: `BlockId`, an opaque fixed-width identifier with
equality (its source file is not in this snapshot). -/
abbrev BlockId := Nat

/-- `CacheEntryState` from `entry.rs`: `{Dirty, Clean}`. -/
inductive CacheEntryState where
  | Dirty
  | Clean
deriving DecidableEq, Repr

/-- `BlockBaseStoreState` from `entry.rs`:
`{ExistsInBaseStore, DoesntExistInBaseStore}`. -/
inductive BlockBaseStoreState where
  | ExistsInBaseStore
  | DoesntExistInBaseStore
deriving DecidableEq, Repr

/-- Modelled from the spec: the low-level block store's `store(BlockId, &Data)`
operation that the cache entry calls when flushing (the `BlockStore` trait's
implementations are not in this snapshot). We model only the outcome the entry
observes: success, or an error message that the entry propagates. -/
structure BaseStore where
  storeResult : BlockId → Data → Except String Unit

/-- A call made by a cache entry into the base store's `store` operation.
Operations on a cache entry return the list of such calls they performed, so
that theorems can speak about the base store being or not being invoked. -/
structure StoreCall where
  block_id : BlockId
  data : Data

/-- `BlockCacheEntry` from `entry.rs`: a single block's cached state. -/
structure BlockCacheEntry where
  base_store : BaseStore
  dirty : CacheEntryState
  data : Data
  block_exists_in_base_store : BlockBaseStoreState

/-- `BlockCacheEntry::new` from `entry.rs`. -/
def BlockCacheEntry.new (base_store : BaseStore) (data : Data)
    (dirty : CacheEntryState) (block_exists_in_base_store : BlockBaseStoreState) :
    BlockCacheEntry :=
  { base_store := base_store, dirty := dirty, data := data,
    block_exists_in_base_store := block_exists_in_base_store }

/-- `BlockCacheEntry::data` from `entry.rs`: read-only payload access through a
shared borrow. We model the call as returning the payload together with the
entry as it stands after the call. -/
def BlockCacheEntry.dataCall (self : BlockCacheEntry) : Data × BlockCacheEntry :=
  (self.data, self)

/-- `BlockCacheEntry::data_mut` from `entry.rs`: sets `dirty` to `Dirty` and
hands out mutable access to the payload. The function `f` models whatever the
caller does through the returned mutable borrow (`f = id` when the caller never
writes). -/
def BlockCacheEntry.data_mut (self : BlockCacheEntry) (f : Data → Data) :
    BlockCacheEntry :=
  { self with dirty := CacheEntryState.Dirty, data := f self.data }

/-- `BlockCacheEntry::flush` from `entry.rs`: if the entry is `Dirty`, call the
base store's `store` and on success become `Clean`; a store error is propagated
by `?` and leaves the entry as it was. Returns the entry after the call, the
`Result`, and the list of base-store calls made. -/
def BlockCacheEntry.flush (self : BlockCacheEntry) (block_id : BlockId) :
    BlockCacheEntry × Except String Unit × List StoreCall :=
  if self.dirty = CacheEntryState.Dirty then
    match self.base_store.storeResult block_id self.data with
    | Except.ok _ =>
        ({ self with dirty := CacheEntryState.Clean }, Except.ok (),
          [{ block_id := block_id, data := self.data }])
    | Except.error e =>
        (self, Except.error e, [{ block_id := block_id, data := self.data }])
  else
    (self, Except.ok (), [])

/-- `BlockCacheEntry::resize` from `entry.rs`: resizes the payload and sets
`dirty` to `Dirty`. -/
def BlockCacheEntry.resize (self : BlockCacheEntry) (new_size : Nat) :
    BlockCacheEntry :=
  { self with data := self.data.resize new_size, dirty := CacheEntryState.Dirty }

/-- `BlockCacheEntry::discard` from `entry.rs`: consumes the entry, sets
`dirty` to `Clean` so that the value can be safely dropped, and makes no
base-store call. Returns the entry state seen by the drop that follows, and
the (empty) list of base-store calls made. -/
def BlockCacheEntry.discard (self : BlockCacheEntry) :
    BlockCacheEntry × List StoreCall :=
  ({ self with dirty := CacheEntryState.Clean }, [])

/-- `impl Drop for BlockCacheEntry` from `entry.rs`: the destructor asserts
`dirty == Clean`. Returns whether the assertion passes; `false` means the
process aborts ("Tried to drop a dirty block. Please call flush() first"). -/
def BlockCacheEntry.dropAssertionPasses (self : BlockCacheEntry) : Bool :=
  self.dirty = CacheEntryState.Clean

/-! Concrete instances used by witnesses and counterexamples. -/

/-- A small concrete payload. -/
def exampleData : Data := { reservedBefore := 0, payload := [1, 2, 3], reservedAfter := 0 }

/-- A base store whose `store` always succeeds. -/
def storeOkBase : BaseStore := { storeResult := fun _ _ => Except.ok () }

/-- A base store whose `store` always fails with an I/O error. -/
def storeErrBase : BaseStore := { storeResult := fun _ _ => Except.error "io error" }

/-- A dirty entry over a succeeding base store, marked as existing in the base. -/
def exampleDirtyEntry : BlockCacheEntry :=
  BlockCacheEntry.new storeOkBase exampleData CacheEntryState.Dirty
    BlockBaseStoreState.ExistsInBaseStore

/-- A clean entry over a succeeding base store. -/
def exampleCleanEntry : BlockCacheEntry :=
  BlockCacheEntry.new storeOkBase exampleData CacheEntryState.Clean
    BlockBaseStoreState.ExistsInBaseStore

/-- A dirty entry over a failing base store. -/
def exampleDirtyEntryFailingStore : BlockCacheEntry :=
  BlockCacheEntry.new storeErrBase exampleData CacheEntryState.Dirty
    BlockBaseStoreState.ExistsInBaseStore

/-- A dirty entry whose block does not yet exist in the base store. -/
def exampleDirtyAbsentEntry : BlockCacheEntry :=
  BlockCacheEntry.new storeOkBase exampleData CacheEntryState.Dirty
    BlockBaseStoreState.DoesntExistInBaseStore

/-- C1: `flush(block_id)` is a no-op when the entry is `Clean` (the base store
is not called); when `Dirty` it calls the base store's `store(block_id, data)`
and on success transitions to `Clean`; a store error is propagated and the
entry stays `Dirty`. -/
theorem c1_flush_behavior (e : BlockCacheEntry) (bid : BlockId) :
    (e.dirty = CacheEntryState.Clean → e.flush bid = (e, Except.ok (), [])) ∧
    (e.dirty = CacheEntryState.Dirty →
      (e.base_store.storeResult bid e.data = Except.ok () →
        e.flush bid = ({ e with dirty := CacheEntryState.Clean }, Except.ok (),
          [{ block_id := bid, data := e.data }])) ∧
      (∀ err, e.base_store.storeResult bid e.data = Except.error err →
        e.flush bid = (e, Except.error err, [{ block_id := bid, data := e.data }]) ∧
          (e.flush bid).1.dirty = CacheEntryState.Dirty)) := by
  refine ⟨fun h => ?_, fun h => ⟨fun hs => ?_, fun err hs => ?_⟩⟩
  · simp [BlockCacheEntry.flush, h]
  · simp [BlockCacheEntry.flush, h, hs]
  · constructor
    · simp [BlockCacheEntry.flush, h, hs]
    · simp [BlockCacheEntry.flush, h, hs]

/-- Witness for C1 at concrete entries: a clean entry flushes as a no-op, a
dirty entry over a succeeding store becomes clean, and a dirty entry over a
failing store keeps the error and stays dirty. -/
theorem c1_flush_behavior_witness :
    exampleCleanEntry.flush 0 = (exampleCleanEntry, Except.ok (), []) ∧
    exampleDirtyEntry.flush 0 =
      ({ exampleDirtyEntry with dirty := CacheEntryState.Clean }, Except.ok (),
        [{ block_id := 0, data := exampleDirtyEntry.data }]) ∧
    (exampleDirtyEntryFailingStore.flush 0 =
      (exampleDirtyEntryFailingStore, Except.error "io error",
        [{ block_id := 0, data := exampleDirtyEntryFailingStore.data }]) ∧
      (exampleDirtyEntryFailingStore.flush 0).1.dirty = CacheEntryState.Dirty) :=
  ⟨(c1_flush_behavior exampleCleanEntry 0).1 rfl,
   ((c1_flush_behavior exampleDirtyEntry 0).2 rfl).1 rfl,
   ((c1_flush_behavior exampleDirtyEntryFailingStore 0).2 rfl).2 "io error" rfl⟩

/-- C2: dropping a `Dirty` entry fails the destructor assertion (the process
aborts); an entry is destroyed without aborting exactly when it is `Clean`,
and in particular after `discard`. -/
theorem c2_dirty_drop_aborts (e : BlockCacheEntry) :
    (e.dirty = CacheEntryState.Dirty → e.dropAssertionPasses = false) ∧
    (e.dirty = CacheEntryState.Clean → e.dropAssertionPasses = true) ∧
    (e.discard).1.dropAssertionPasses = true := by
  refine ⟨fun h => ?_, fun h => ?_, ?_⟩
  · simp [BlockCacheEntry.dropAssertionPasses, h]
  · simp [BlockCacheEntry.dropAssertionPasses, h]
  · simp [BlockCacheEntry.dropAssertionPasses, BlockCacheEntry.discard]

/-- Witness for C2 at concrete entries: a dirty entry aborts on drop, a clean
one does not, and a discarded dirty entry does not. -/
theorem c2_dirty_drop_aborts_witness :
    exampleDirtyEntry.dropAssertionPasses = false ∧
    exampleCleanEntry.dropAssertionPasses = true ∧
    (exampleDirtyEntry.discard).1.dropAssertionPasses = true :=
  ⟨(c2_dirty_drop_aborts exampleDirtyEntry).1 rfl,
   (c2_dirty_drop_aborts exampleCleanEntry).2.1 rfl,
   (c2_dirty_drop_aborts exampleDirtyEntry).2.2⟩

/-- C3: `data_mut` (whatever the caller does through the borrow) and
`resize(n)` transition the entry to `Dirty`; `data()` returns the payload and
leaves the entry, every field included, unchanged. -/
theorem c3_mutators_dirty_observer_pure (e : BlockCacheEntry) (f : Data → Data)
    (n : Nat) :
    (e.data_mut f).dirty = CacheEntryState.Dirty ∧
    (e.resize n).dirty = CacheEntryState.Dirty ∧
    e.dataCall = (e.data, e) :=
  ⟨rfl, rfl, rfl⟩

/-- C5: `discard()` consumes the entry, sets its state to `Clean`, performs no
base-store call whatsoever, and the subsequent drop does not abort — for every
entry, dirty or clean, and with all other fields unchanged. -/
theorem c5_discard_no_store_no_abort (e : BlockCacheEntry) :
    e.discard = ({ e with dirty := CacheEntryState.Clean }, []) ∧
    (e.discard).1.dropAssertionPasses = true ∧
    (e.discard).1.data = e.data ∧
    (e.discard).1.block_exists_in_base_store = e.block_exists_in_base_store :=
  ⟨rfl, rfl, rfl, rfl⟩

/-- C4 counterexample: a `Dirty` entry whose block does not exist in the base
store, flushed successfully, does NOT end in `[Clean, Exists]`: `flush` in
`entry.rs` only sets `dirty` and leaves `block_exists_in_base_store`
unchanged, so the entry ends in `[Clean, DoesntExist]`. -/
theorem c4_flush_exists_counterexample :
    exampleDirtyAbsentEntry.dirty = CacheEntryState.Dirty ∧
    (exampleDirtyAbsentEntry.flush 0).2.1 = Except.ok () ∧
    (exampleDirtyAbsentEntry.flush 0).1.dirty = CacheEntryState.Clean ∧
    (exampleDirtyAbsentEntry.flush 0).1.block_exists_in_base_store ≠
      BlockBaseStoreState.ExistsInBaseStore := by
  refine ⟨rfl, rfl, rfl, ?_⟩
  intro h
  exact BlockBaseStoreState.noConfusion h

/-- C4 as amended: a successful flush of a `Dirty` entry transitions `dirty`
to `Clean` but leaves `block_exists_in_base_store` unchanged; an entry in
`[Dirty, Exists]` ends in `[Clean, Exists]`, while one in
`[Dirty, DoesntExist]` ends in `[Clean, DoesntExist]`. -/
theorem c4_flush_keeps_base_store_state (e : BlockCacheEntry) (bid : BlockId)
    (hd : e.dirty = CacheEntryState.Dirty)
    (hs : e.base_store.storeResult bid e.data = Except.ok ()) :
    (e.flush bid).2.1 = Except.ok () ∧
    (e.flush bid).1.dirty = CacheEntryState.Clean ∧
    (e.flush bid).1.block_exists_in_base_store = e.block_exists_in_base_store := by
  refine ⟨?_, ?_, ?_⟩ <;> simp [BlockCacheEntry.flush, hd, hs]

/-- Witness for the amended C4 at a concrete `[Dirty, Exists]` entry. -/
theorem c4_flush_keeps_base_store_state_witness :
    exampleDirtyEntry.dirty = CacheEntryState.Dirty ∧
    exampleDirtyEntry.base_store.storeResult 0 exampleDirtyEntry.data =
      Except.ok () ∧
    ((exampleDirtyEntry.flush 0).2.1 = Except.ok () ∧
      (exampleDirtyEntry.flush 0).1.dirty = CacheEntryState.Clean ∧
      (exampleDirtyEntry.flush 0).1.block_exists_in_base_store =
        exampleDirtyEntry.block_exists_in_base_store) :=
  ⟨rfl, rfl, c4_flush_keeps_base_store_state exampleDirtyEntry 0 rfl rfl⟩

/-- `Data.resize` to the current payload length leaves the buffer unchanged. -/
theorem data_resize_self_length (d : Data) : d.resize d.payload.length = d := by
  simp [Data.resize]

/-- C10: `data_mut` and `resize` dirty the entry unconditionally: `data_mut`
with a caller that never writes through the borrow leaves everything but the
`dirty` flag unchanged, and `resize` to the current payload length likewise,
so an entry becomes `Dirty` without its payload ever changing. -/
theorem c10_dirty_without_payload_change (e : BlockCacheEntry) :
    e.data_mut (fun d => d) = { e with dirty := CacheEntryState.Dirty } ∧
    e.resize e.data.payload.length = { e with dirty := CacheEntryState.Dirty } := by
  constructor
  · rfl
  · simp only [BlockCacheEntry.resize, data_resize_self_length]

/-!
The symmetric cipher layer. The cipher sources are not in this snapshot (only
`cipher_tests.rs` is), so the layer is modelled from the spec: an
authenticated cipher emits `nonce ++ body ++ tag`, where the body is the
plaintext combined with a keystream derived from key and nonce, and the tag
authenticates key, nonce and body. The ideal authenticity of the tag (a real
tag forges only with negligible probability) is modelled by a tag that binds
key, nonce and body injectively; bytes are naturals so the fixed number of
tag cells can carry that binding.
-/

/-- Modelled from the spec: a member of the cipher family, described by its
key size and the nonce and authentication-tag sizes that make up the
ciphertext overhead before and after the payload. -/
structure Cipher where
  KEY_SIZE : Nat
  nonceSize : Nat
  tagSize : Nat
deriving DecidableEq, Repr

/-- `CIPHERTEXT_OVERHEAD_PREFIX` of the Rust `Cipher` trait: bytes added
before the plaintext (the nonce). -/
def Cipher.CIPHERTEXT_OVERHEAD_PRE (C : Cipher) : Nat := C.nonceSize

/-- `CIPHERTEXT_OVERHEAD_SUFFIX` of the Rust `Cipher` trait: bytes added
after the plaintext (the authentication tag). -/
def Cipher.CIPHERTEXT_OVERHEAD_SUF (C : Cipher) : Nat := C.tagSize

/-- XChaCha20-Poly1305: 32-byte key, 24-byte nonce, 16-byte Poly1305 tag. -/
def XChaCha20Poly1305 : Cipher := { KEY_SIZE := 32, nonceSize := 24, tagSize := 16 }

/-- AES-128-GCM: 16-byte key, 12-byte nonce, 16-byte GCM tag. -/
def Aes128Gcm : Cipher := { KEY_SIZE := 16, nonceSize := 12, tagSize := 16 }

/-- AES-256-GCM, software implementation: 32-byte key, 12-byte nonce,
16-byte GCM tag. -/
def Aes256GcmSoftwareImplemented : Cipher :=
  { KEY_SIZE := 32, nonceSize := 12, tagSize := 16 }

/-- AES-256-GCM, hardware-accelerated implementation: byte-for-byte
interoperable with the software one, so the same algorithm description. -/
def Aes256GcmHardwareAccelerated : Cipher :=
  { KEY_SIZE := 32, nonceSize := 12, tagSize := 16 }

/-- AES-256-GCM, dispatching variant: selects the hardware path when
available, otherwise software; both paths are the same algorithm. -/
def Aes256Gcm : Cipher := Aes256GcmHardwareAccelerated

/-- The cipher family under specification. -/
def cipherFamily : List Cipher :=
  [XChaCha20Poly1305, Aes128Gcm, Aes256GcmSoftwareImplemented,
   Aes256GcmHardwareAccelerated, Aes256Gcm]

/-- The largest element of a byte list (0 for the empty list). -/
def listMax (l : List Byte) : Nat := l.foldr max 0

/-- The value of a byte list read as little-endian digits in base `b`. -/
def digitsVal (b : Nat) : List Byte → Nat
  | [] => 0
  | x :: xs => x + b * digitsVal b xs

/-- Inverse of `digitsVal`: read `len` little-endian digits in base `b`
out of `v`. -/
def decodeDigits (b : Nat) : Nat → Nat → List Byte
  | 0, _ => []
  | len + 1, v => v % b :: decodeDigits b len (v / b)

/-- An injective encoding of a byte list as three numbers: its length, a base
exceeding every element, and its digit value in that base. -/
def encodeList (l : List Byte) : Nat × Nat × Nat :=
  (l.length, listMax l + 2, digitsVal (listMax l + 2) l)

/-- The nine tag cells binding key, nonce and body: the injective encoding of
each of the three, flattened. -/
def tagCells (key nonce body : List Byte) : List Byte :=
  [(encodeList key).1, (encodeList key).2.1, (encodeList key).2.2,
   (encodeList nonce).1, (encodeList nonce).2.1, (encodeList nonce).2.2,
   (encodeList body).1, (encodeList body).2.1, (encodeList body).2.2]

/-- The authentication tag: the nine binding cells, zero-padded and cut to
the cipher's tag size. -/
def tagFn (C : Cipher) (key nonce body : List Byte) : List Byte :=
  (tagCells key nonce body ++ List.replicate C.tagSize 0).take C.tagSize

/-- The keystream derived from key and nonce, one value per position. -/
def keyStream (key nonce : List Byte) (i : Nat) : Byte :=
  (key.sum + nonce.sum) ^^^ i

/-- Combine a list with a keystream starting at position `i`, by xor.
Applying it twice with the same stream restores the input. -/
def xorStream (s : Nat → Byte) : Nat → List Byte → List Byte
  | _, [] => []
  | i, x :: xs => (x ^^^ s i) :: xorStream s (i + 1) xs

/-- The ciphertext layout from the spec: `nonce ++ body ++ tag`, the body
being the plaintext combined with the keystream. -/
def rawEncrypt (C : Cipher) (key nonce p : List Byte) : List Byte :=
  nonce ++ xorStream (keyStream key nonce) 0 p ++
    tagFn C key nonce (xorStream (keyStream key nonce) 0 p)

/-- Decryption from the spec: fail if the ciphertext is shorter than the
overhead before plus after; otherwise split it into nonce, body and tag,
fail unless the recomputed tag matches, and undo the keystream. -/
def rawDecrypt (C : Cipher) (key c : List Byte) : Except String (List Byte) :=
  if c.length < C.nonceSize + C.tagSize then
    Except.error "Ciphertext is too small"
  else
    let nonce := c.take C.nonceSize
    let body := (c.drop C.nonceSize).take (c.length - C.nonceSize - C.tagSize)
    let tag := c.drop (c.length - C.tagSize)
    if tagFn C key nonce body = tag then
      Except.ok (xorStream (keyStream key nonce) 0 body)
    else
      Except.error "Decryption failed"

/-- Modelled from the spec: the fresh random nonce drawn by each `encrypt`
call. Freshness ("distinct with overwhelming probability") is idealised as a
never-repeating counter; `drawNonce` returns a nonce of the cipher's nonce
size and the advanced state. -/
structure NonceSource where
  counter : Nat
deriving DecidableEq, Repr

/-- Draw a fresh nonce of the cipher's nonce size. -/
def drawNonce (C : Cipher) (rng : NonceSource) : List Byte × NonceSource :=
  (List.replicate C.nonceSize rng.counter, { counter := rng.counter + 1 })

/-- `Cipher::encrypt` modelled from the spec: consumes a `Data` whose payload
is the plaintext, draws a fresh nonce, and widens the payload into the
reservations by the overhead before and after. -/
def Cipher.encrypt (C : Cipher) (key : List Byte) (d : Data) (rng : NonceSource) :
    Data × NonceSource :=
  let n := drawNonce C rng
  ({ reservedBefore := d.reservedBefore - C.nonceSize,
     payload := rawEncrypt C key n.1 d.payload,
     reservedAfter := d.reservedAfter - C.tagSize }, n.2)

/-- `Cipher::decrypt` modelled from the spec: consumes ciphertext and returns
the plaintext, giving the overhead bytes back to the reservations. -/
def Cipher.decrypt (C : Cipher) (key : List Byte) (d : Data) : Except String Data :=
  (rawDecrypt C key d.payload).map fun p =>
    { reservedBefore := d.reservedBefore + C.nonceSize,
      payload := p,
      reservedAfter := d.reservedAfter + C.tagSize }

/-! Lemmas about the cipher model. -/

/-- Every element of a list is bounded by `listMax`. -/
theorem le_listMax {l : List Byte} {x : Byte} (h : x ∈ l) : x ≤ listMax l := by
  induction l with
  | nil => cases h
  | cons a t ih =>
    rcases List.mem_cons.mp h with rfl | h'
    · exact Nat.le_max_left _ _
    · exact Nat.le_trans (ih h') (Nat.le_max_right _ _)

/-- `decodeDigits` undoes `digitsVal` when every digit is below the base. -/
theorem decodeDigits_digitsVal {b : Nat} (hb : 0 < b) :
    ∀ l : List Byte, (∀ x ∈ l, x < b) →
      decodeDigits b l.length (digitsVal b l) = l := by
  intro l
  induction l with
  | nil => intro _; rfl
  | cons x xs ih =>
    intro hlt
    have hx : x < b := hlt x (List.mem_cons_self x xs)
    show decodeDigits b (xs.length + 1) (x + b * digitsVal b xs) = x :: xs
    simp only [decodeDigits]
    congr 1
    · rw [Nat.add_mul_mod_self_left, Nat.mod_eq_of_lt hx]
    · rw [Nat.add_mul_div_left _ _ hb, Nat.div_eq_of_lt hx, Nat.zero_add]
      exact ih fun y hy => hlt y (List.mem_cons_of_mem _ hy)

/-- The three-number list encoding is injective. -/
theorem encodeList_inj {l₁ l₂ : List Byte} (h : encodeList l₁ = encodeList l₂) :
    l₁ = l₂ := by
  have h1 : l₁.length = l₂.length := congrArg Prod.fst h
  have h2 : listMax l₁ + 2 = listMax l₂ + 2 := congrArg (fun t => t.2.1) h
  have h3 : digitsVal (listMax l₁ + 2) l₁ = digitsVal (listMax l₂ + 2) l₂ :=
    congrArg (fun t => t.2.2) h
  have hm1 : ∀ x ∈ l₁, x < listMax l₁ + 2 :=
    fun x hx => Nat.lt_of_le_of_lt (le_listMax hx) (by omega)
  have hm2 : ∀ x ∈ l₂, x < listMax l₂ + 2 :=
    fun x hx => Nat.lt_of_le_of_lt (le_listMax hx) (by omega)
  calc l₁ = decodeDigits (listMax l₁ + 2) l₁.length (digitsVal (listMax l₁ + 2) l₁) :=
        (decodeDigits_digitsVal (by omega) l₁ hm1).symm
    _ = decodeDigits (listMax l₂ + 2) l₂.length (digitsVal (listMax l₂ + 2) l₂) := by
        rw [h3, h2, h1]
    _ = l₂ := decodeDigits_digitsVal (by omega) l₂ hm2

/-- The nine tag cells bind key, nonce and body injectively. -/
theorem tagCells_inj {k₁ n₁ b₁ k₂ n₂ b₂ : List Byte}
    (h : tagCells k₁ n₁ b₁ = tagCells k₂ n₂ b₂) : k₁ = k₂ ∧ n₁ = n₂ ∧ b₁ = b₂ := by
  simp only [tagCells, List.cons.injEq, and_true] at h
  obtain ⟨e1, e2, e3, e4, e5, e6, e7, e8, e9⟩ := h
  refine ⟨encodeList_inj ?_, encodeList_inj ?_, encodeList_inj ?_⟩
  · exact Prod.ext e1 (Prod.ext e2 e3)
  · exact Prod.ext e4 (Prod.ext e5 e6)
  · exact Prod.ext e7 (Prod.ext e8 e9)

/-- The tag always has exactly the cipher's tag size. -/
theorem tagFn_length (C : Cipher) (k n b : List Byte) :
    (tagFn C k n b).length = C.tagSize := by
  simp [tagFn, tagCells]
  omega

/-- With at least nine tag cells available, the tag starts with the binding
cells. -/
theorem tagFn_take_nine {C : Cipher} (h9 : 9 ≤ C.tagSize) (k n b : List Byte) :
    (tagFn C k n b).take 9 = tagCells k n b := by
  rw [tagFn, List.take_take, Nat.min_eq_left h9,
    List.take_append_of_le_length (by simp [tagCells])]
  rfl

/-- With at least nine tag cells available, the tag is injective in key,
nonce and body: the ideal-MAC property of the model. -/
theorem tagFn_inj {C : Cipher} (h9 : 9 ≤ C.tagSize) {k₁ n₁ b₁ k₂ n₂ b₂ : List Byte}
    (h : tagFn C k₁ n₁ b₁ = tagFn C k₂ n₂ b₂) : k₁ = k₂ ∧ n₁ = n₂ ∧ b₁ = b₂ :=
  tagCells_inj ((tagFn_take_nine h9 k₁ n₁ b₁).symm.trans
    ((congrArg (List.take 9) h).trans (tagFn_take_nine h9 k₂ n₂ b₂)))

/-- `xorStream` preserves length. -/
theorem xorStream_length (s : Nat → Byte) (i : Nat) (l : List Byte) :
    (xorStream s i l).length = l.length := by
  induction l generalizing i with
  | nil => rfl
  | cons x xs ih => simp [xorStream, ih]

/-- `xorStream` is an involution. -/
theorem xorStream_xorStream (s : Nat → Byte) (i : Nat) (l : List Byte) :
    xorStream s i (xorStream s i l) = l := by
  induction l generalizing i with
  | nil => rfl
  | cons x xs ih =>
    simp only [xorStream, List.cons.injEq]
    exact ⟨by rw [Nat.xor_assoc, Nat.xor_self, Nat.xor_zero], ih (i + 1)⟩

/-- Length of the raw ciphertext. -/
theorem rawEncrypt_length (C : Cipher) (key nonce p : List Byte) :
    (rawEncrypt C key nonce p).length = nonce.length + p.length + C.tagSize := by
  simp [rawEncrypt, xorStream_length, tagFn_length, Nat.add_assoc]

/-- `rawDecrypt` on a well-shaped ciphertext: take it apart and check the
tag. -/
theorem rawDecrypt_append (C : Cipher) (key nonce body tag : List Byte)
    (hn : nonce.length = C.nonceSize) (ht : tag.length = C.tagSize) :
    rawDecrypt C key (nonce ++ body ++ tag) =
      if tagFn C key nonce body = tag then
        Except.ok (xorStream (keyStream key nonce) 0 body)
      else Except.error "Decryption failed" := by
  have hlen : (nonce ++ body ++ tag).length = C.nonceSize + body.length + C.tagSize := by
    simp [List.length_append, hn, ht]
    omega
  have h1 : (nonce ++ body ++ tag).take C.nonceSize = nonce := by
    rw [List.append_assoc]; exact List.take_left' hn
  have h2 : (nonce ++ body ++ tag).drop C.nonceSize = body ++ tag := by
    rw [List.append_assoc]; exact List.drop_left' hn
  have h3 : (nonce ++ body ++ tag).length - C.nonceSize - C.tagSize = body.length := by
    omega
  have h5 : (nonce ++ body ++ tag).drop ((nonce ++ body ++ tag).length - C.tagSize) = tag := by
    have he : (nonce ++ body ++ tag).length - C.tagSize = (nonce ++ body).length := by
      simp [List.length_append, hn]
      omega
    rw [he]
    exact List.drop_left (nonce ++ body) tag
  rw [rawDecrypt, if_neg (by omega)]
  simp only [h1, h2, h3, h5, List.take_left]

/-- Raw round-trip: decrypting an encryption under the same key recovers the
plaintext. -/
theorem rawDecrypt_rawEncrypt (C : Cipher) (key nonce p : List Byte)
    (hn : nonce.length = C.nonceSize) :
    rawDecrypt C key (rawEncrypt C key nonce p) = Except.ok p := by
  rw [rawEncrypt, rawDecrypt_append C key nonce _ _ hn (tagFn_length C key nonce _),
    if_pos rfl, xorStream_xorStream]

/-- Setting one position of a list to a different value changes the list. -/
theorem set_ne_of_ne {l : List Byte} {i : Nat} {b : Byte} (hi : i < l.length)
    (hb : b ≠ l[i]) : l.set i b ≠ l := by
  intro h
  have h2 : (l.set i b)[i]? = l[i]? := by rw [h]
  rw [List.getElem?_set_self hi, List.getElem?_eq_getElem hi] at h2
  exact hb (Option.some.inj h2)

/-- Altering any single position of a raw ciphertext makes decryption fail:
a change in the nonce or body region makes the recomputed tag differ from the
stored one (tag injectivity), and a change in the tag region breaks the
comparison with the recomputed tag. -/
theorem rawDecrypt_set (C : Cipher) (key nonce p : List Byte)
    (hn : nonce.length = C.nonceSize) (h9 : 9 ≤ C.tagSize)
    (i : Nat) (b : Byte) (hi : i < (rawEncrypt C key nonce p).length)
    (hb : b ≠ (rawEncrypt C key nonce p)[i]) :
    rawDecrypt C key ((rawEncrypt C key nonce p).set i b) =
      Except.error "Decryption failed" := by
  have hbl : (xorStream (keyStream key nonce) 0 p).length = p.length :=
    xorStream_length _ _ _
  have htl : (tagFn C key nonce (xorStream (keyStream key nonce) 0 p)).length
      = C.tagSize := tagFn_length _ _ _ _
  have hcl := rawEncrypt_length C key nonce p
  by_cases h1 : i < C.nonceSize
  · -- alteration inside the nonce
    have hiv : i < nonce.length := by omega
    have hset : (rawEncrypt C key nonce p).set i b =
        nonce.set i b ++ xorStream (keyStream key nonce) 0 p ++
          tagFn C key nonce (xorStream (keyStream key nonce) 0 p) := by
      rw [rawEncrypt, List.set_append_left _ _ (by simp; omega),
        List.set_append_left _ _ hiv]
    have hci : (rawEncrypt C key nonce p)[i] = nonce[i] := by
      simp only [rawEncrypt]
      rw [List.getElem_append_left (by simp; omega), List.getElem_append_left hiv]
    rw [hset, rawDecrypt_append C key _ _ _ (by simp [hn]) htl, if_neg ?_]
    intro heq
    obtain ⟨-, hnn, -⟩ := tagFn_inj h9 heq
    exact set_ne_of_ne hiv (fun h => hb (by rw [hci, ← h])) hnn
  · by_cases h2 : i < C.nonceSize + p.length
    · -- alteration inside the body
      have hilen : nonce.length ≤ i := by omega
      have hiv : i - nonce.length < (xorStream (keyStream key nonce) 0 p).length := by
        omega
      have hset : (rawEncrypt C key nonce p).set i b =
          nonce ++ (xorStream (keyStream key nonce) 0 p).set (i - nonce.length) b ++
            tagFn C key nonce (xorStream (keyStream key nonce) 0 p) := by
        rw [rawEncrypt, List.set_append_left _ _ (by simp; omega),
          List.set_append_right _ _ hilen]
      have hci : (rawEncrypt C key nonce p)[i] =
          (xorStream (keyStream key nonce) 0 p)[i - nonce.length] := by
        simp only [rawEncrypt]
        rw [List.getElem_append_left (by simp; omega),
          List.getElem_append_right hilen]
      rw [hset, rawDecrypt_append C key _ _ _ hn htl, if_neg ?_]
      intro heq
      obtain ⟨-, -, hbb⟩ := tagFn_inj h9 heq
      exact set_ne_of_ne hiv (fun h => hb (by rw [hci, ← h])) hbb
    · -- alteration inside the tag
      have hilen : (nonce ++ xorStream (keyStream key nonce) 0 p).length ≤ i := by
        simp [hbl, hn]
        omega
      have hiv : i - (nonce ++ xorStream (keyStream key nonce) 0 p).length <
          (tagFn C key nonce (xorStream (keyStream key nonce) 0 p)).length := by
        simp [hbl, htl, hn]
        omega
      have hset : (rawEncrypt C key nonce p).set i b =
          nonce ++ xorStream (keyStream key nonce) 0 p ++
            (tagFn C key nonce (xorStream (keyStream key nonce) 0 p)).set
              (i - (nonce ++ xorStream (keyStream key nonce) 0 p).length) b := by
        rw [rawEncrypt, List.set_append_right _ _ hilen]
      have hci : (rawEncrypt C key nonce p)[i] =
          (tagFn C key nonce (xorStream (keyStream key nonce) 0 p))[
            i - (nonce ++ xorStream (keyStream key nonce) 0 p).length] := by
        simp only [rawEncrypt]
        rw [List.getElem_append_right hilen]
      rw [hset, rawDecrypt_append C key _ _ _ hn (by simp [htl]), if_neg ?_]
      intro heq
      exact set_ne_of_ne hiv (fun h => hb (by rw [hci, ← h])) heq.symm

/-- Decrypting under a different key fails: the recomputed tag binds the
wrong key. -/
theorem rawDecrypt_wrong_key (C : Cipher) (key key2 nonce p : List Byte)
    (hn : nonce.length = C.nonceSize) (h9 : 9 ≤ C.tagSize) (hne : key2 ≠ key) :
    rawDecrypt C key2 (rawEncrypt C key nonce p) =
      Except.error "Decryption failed" := by
  rw [rawEncrypt, rawDecrypt_append C key2 nonce _ _ hn (tagFn_length C key nonce _),
    if_neg ?_]
  intro heq
  obtain ⟨hk, -, -⟩ := tagFn_inj h9 heq
  exact hne hk

/-- Size facts shared by every cipher in the family: a nonempty nonce and at
least nine tag cells. -/
theorem cipherFamily_sizes {C : Cipher} (hC : C ∈ cipherFamily) :
    1 ≤ C.nonceSize ∧ 9 ≤ C.tagSize := by
  fin_cases hC <;> exact ⟨by decide, by decide⟩

/-- C6: for every cipher in the family, every key of the cipher's `KEY_SIZE`
and every plaintext carried in a `Data` buffer with sufficient reservations
before and after the payload, decrypting an encryption under the same key
succeeds and returns the plaintext (reservations included). -/
theorem c6_roundtrip (C : Cipher) (hC : C ∈ cipherFamily) (key : List Byte)
    (hk : key.length = C.KEY_SIZE) (d : Data) (rng : NonceSource)
    (hres1 : C.CIPHERTEXT_OVERHEAD_PRE ≤ d.reservedBefore)
    (hres2 : C.CIPHERTEXT_OVERHEAD_SUF ≤ d.reservedAfter) :
    C.decrypt key (C.encrypt key d rng).1 = Except.ok d := by
  rw [Cipher.encrypt, Cipher.decrypt]
  simp only [drawNonce]
  rw [rawDecrypt_rawEncrypt C key _ _ (List.length_replicate _ _)]
  rw [Except.map]
  have e1 : d.reservedBefore - C.nonceSize + C.nonceSize = d.reservedBefore :=
    Nat.sub_add_cancel hres1
  have e2 : d.reservedAfter - C.tagSize + C.tagSize = d.reservedAfter :=
    Nat.sub_add_cancel hres2
  simp only [e1, e2]

/-- Witness for C6: XChaCha20-Poly1305 with the all-zero 32-byte key and a
two-byte plaintext with exactly the required reservations round-trips. -/
theorem c6_roundtrip_witness :
    XChaCha20Poly1305 ∈ cipherFamily ∧
    (List.replicate 32 0).length = XChaCha20Poly1305.KEY_SIZE ∧
    XChaCha20Poly1305.decrypt (List.replicate 32 0)
      (XChaCha20Poly1305.encrypt (List.replicate 32 0)
        { reservedBefore := 24, payload := [7, 3], reservedAfter := 16 }
        { counter := 0 }).1 =
      Except.ok { reservedBefore := 24, payload := [7, 3], reservedAfter := 16 } :=
  ⟨by decide, by decide,
    c6_roundtrip XChaCha20Poly1305 (by decide) (List.replicate 32 0) (by decide)
      { reservedBefore := 24, payload := [7, 3], reservedAfter := 16 }
      { counter := 0 } (by decide) (by decide)⟩

/-- C7: for every cipher in the family, decrypt fails on any ciphertext
shorter than the overhead before plus after, on any valid ciphertext with any
single byte altered, and under any key different from the encrypting key. -/
theorem c7_decrypt_failures (C : Cipher) (hC : C ∈ cipherFamily)
    (key key2 : List Byte) (d : Data) (rng : NonceSource) :
    (∀ c : Data,
      c.payload.length < C.CIPHERTEXT_OVERHEAD_PRE + C.CIPHERTEXT_OVERHEAD_SUF →
      C.decrypt key c = Except.error "Ciphertext is too small") ∧
    (∀ i b, ∀ hi : i < ((C.encrypt key d rng).1).payload.length,
      b ≠ ((C.encrypt key d rng).1).payload[i] →
      C.decrypt key
        { (C.encrypt key d rng).1 with
          payload := ((C.encrypt key d rng).1).payload.set i b } =
        Except.error "Decryption failed") ∧
    (key2 ≠ key →
      C.decrypt key2 (C.encrypt key d rng).1 = Except.error "Decryption failed") := by
  obtain ⟨-, h9⟩ := cipherFamily_sizes hC
  refine ⟨fun c hlt => ?_, fun i b hi hb => ?_, fun hne => ?_⟩
  · rw [Cipher.CIPHERTEXT_OVERHEAD_PRE, Cipher.CIPHERTEXT_OVERHEAD_SUF] at hlt
    rw [Cipher.decrypt, rawDecrypt, if_pos hlt]
    rfl
  · simp only [Cipher.encrypt, drawNonce] at hi hb ⊢
    rw [Cipher.decrypt,
      rawDecrypt_set C key _ _ (List.length_replicate _ _) h9 i b hi hb]
    rfl
  · simp only [Cipher.encrypt, drawNonce]
    rw [Cipher.decrypt,
      rawDecrypt_wrong_key C key key2 _ _ (List.length_replicate _ _) h9 hne]
    rfl

/-- Witness for C7 with XChaCha20-Poly1305, the all-zero 32-byte key, a
two-byte plaintext and a fresh-nonce source at zero: a two-byte ciphertext is
rejected as too small, flipping byte 0 of a valid ciphertext fails decryption,
and the all-one key fails to decrypt what the all-zero key encrypted. -/
theorem c7_decrypt_failures_witness :
    XChaCha20Poly1305 ∈ cipherFamily ∧
    XChaCha20Poly1305.decrypt (List.replicate 32 0)
      { reservedBefore := 0, payload := [171, 205], reservedAfter := 0 } =
      Except.error "Ciphertext is too small" ∧
    XChaCha20Poly1305.decrypt (List.replicate 32 0)
      { (XChaCha20Poly1305.encrypt (List.replicate 32 0)
          { reservedBefore := 24, payload := [7, 3], reservedAfter := 16 }
          { counter := 0 }).1 with
        payload := ((XChaCha20Poly1305.encrypt (List.replicate 32 0)
          { reservedBefore := 24, payload := [7, 3], reservedAfter := 16 }
          { counter := 0 }).1).payload.set 0 1 } =
      Except.error "Decryption failed" ∧
    XChaCha20Poly1305.decrypt (List.replicate 32 1)
      (XChaCha20Poly1305.encrypt (List.replicate 32 0)
        { reservedBefore := 24, payload := [7, 3], reservedAfter := 16 }
        { counter := 0 }).1 =
      Except.error "Decryption failed" := by
  have h := c7_decrypt_failures XChaCha20Poly1305 (by decide)
    (List.replicate 32 0) (List.replicate 32 1)
    { reservedBefore := 24, payload := [7, 3], reservedAfter := 16 }
    { counter := 0 }
  exact ⟨by decide, h.1 _ (by decide), h.2.1 0 1 (by decide) (by decide),
    h.2.2 (by decide)⟩

/-- C8: for every cipher and every plaintext, the empty one included, the
ciphertext payload length is the plaintext payload length plus the overhead
before plus the overhead after. -/
theorem c8_size_algebra (C : Cipher) (key : List Byte) (d : Data)
    (rng : NonceSource) :
    ((C.encrypt key d rng).1).payload.length =
      d.payload.length + C.CIPHERTEXT_OVERHEAD_PRE + C.CIPHERTEXT_OVERHEAD_SUF := by
  simp only [Cipher.encrypt, drawNonce, Cipher.CIPHERTEXT_OVERHEAD_PRE,
    Cipher.CIPHERTEXT_OVERHEAD_SUF]
  rw [rawEncrypt_length, List.length_replicate]
  omega

/-- C9: for every cipher in the family, two successive `encrypt` calls on the
same plaintext under the same key return distinct ciphertexts — each call
draws a fresh nonce (idealised as a never-repeating counter), and the nonces
differ at the first ciphertext byte. -/
theorem c9_nondeterministic (C : Cipher) (hC : C ∈ cipherFamily)
    (key : List Byte) (d : Data) (rng : NonceSource) :
    ((C.encrypt key d rng).1).payload ≠
      ((C.encrypt key d (C.encrypt key d rng).2).1).payload := by
  obtain ⟨h1, -⟩ := cipherFamily_sizes hC
  have e1 : ∀ m : Nat,
      (rawEncrypt C key (List.replicate C.nonceSize m) d.payload)[0]? = some m := by
    intro m
    rw [rawEncrypt, List.append_assoc,
      List.getElem?_append_left (by simp; omega)]
    exact List.getElem?_replicate_of_lt (by omega)
  intro h
  simp only [Cipher.encrypt, drawNonce] at h
  have h0 := congrArg (fun l => l[0]?) h
  simp only [e1, Option.some.injEq] at h0
  omega

/-- Witness for C9: the two successive XChaCha20-Poly1305 encryptions of the
same two-byte plaintext under the all-zero key differ. -/
theorem c9_nondeterministic_witness :
    XChaCha20Poly1305 ∈ cipherFamily ∧
    ((XChaCha20Poly1305.encrypt (List.replicate 32 0)
        { reservedBefore := 24, payload := [7, 3], reservedAfter := 16 }
        { counter := 0 }).1).payload ≠
      ((XChaCha20Poly1305.encrypt (List.replicate 32 0)
        { reservedBefore := 24, payload := [7, 3], reservedAfter := 16 }
        (XChaCha20Poly1305.encrypt (List.replicate 32 0)
          { reservedBefore := 24, payload := [7, 3], reservedAfter := 16 }
          { counter := 0 }).2).1).payload :=
  ⟨by decide,
    c9_nondeterministic XChaCha20Poly1305 (by decide) (List.replicate 32 0)
      { reservedBefore := 24, payload := [7, 3], reservedAfter := 16 }
      { counter := 0 }⟩
